import Mathlib

/-!
# Verification of the duishua wash-trade detection engine (src/app.py)

This file gives a shallow embedding of the wash-trade pattern detection core of
`src/app.py` and settles the claims C1..C10 about it.

Modelling conventions:
* A pandas `DataFrame` row of the cleaned betting data is a `BetRecord`
  (columns 期号 → `round_id`, 原始彩种/彩种 → `lottery`, 会员账号 → `account`,
  投注方向 → `direction`, 投注金额 → `amount`).  Round ids, lottery ids and
  account ids are opaque comparable keys, modelled as `Nat`; directions are the
  strings the source manipulates; amounts (Python floats holding decimal stake
  values) are modelled as exact rationals `ℚ`.
* Dictionaries keyed by insertion order are modelled by lists of keys in first
  occurrence order (`uniqueKeep`); `pandas.groupby` keys (sorted by pandas) are
  enumerated in ascending lexicographic order.
* Because `Rat.add`, `Rat.mul` and `Rat.inv` are `@[irreducible]` in this
  toolchain, the embedding computes with `qadd`/`qdiv` below, which are proved
  equal to `+` and `/` on `ℚ` (`qadd_eq`, `qdiv_eq`), so that concrete runs of
  the engine evaluate inside the kernel.
-/

namespace App

/-- Kernel-computable rational addition; equal to `+` by `qadd_eq`. -/
def qadd (a b : ℚ) : ℚ := Rat.divInt (a.num * b.den + b.num * a.den) (a.den * b.den)

/-- Kernel-computable rational division; equal to `/` by `qdiv_eq`. -/
def qdiv (a b : ℚ) : ℚ := Rat.divInt (a.num * b.den) (a.den * b.num)

theorem qadd_eq (a b : ℚ) : qadd a b = a + b := by
  have ha : ((a.den : Int)) ≠ 0 := Int.natCast_ne_zero.2 a.den_nz
  have hb : ((b.den : Int)) ≠ 0 := Int.natCast_ne_zero.2 b.den_nz
  rw [qadd, ← Rat.divInt_add_divInt a.num b.num ha hb, Rat.num_divInt_den,
    Rat.num_divInt_den]

theorem qdiv_eq (a b : ℚ) : qdiv a b = a / b := by
  rw [qdiv]
  exact (Rat.div_def' a b).symm

/-- Left-fold sum with `qadd`, mirroring the `total += amount` accumulation
loops of the source; equal to `List.sum` by `qsum_eq`. -/
def qsum (l : List ℚ) : ℚ := l.foldl qadd 0

theorem qsum_go (l : List ℚ) : ∀ a : ℚ, l.foldl qadd a = a + l.sum := by
  induction l with
  | nil => intro a; simp [List.foldl]
  | cons x xs ih =>
    intro a
    simp only [List.foldl, List.sum_cons, qadd_eq, ih]
    ring

theorem qsum_eq (l : List ℚ) : qsum l = l.sum := by
  simp [qsum, qsum_go]

/-- One cleaned betting record (a row of `df_clean`/`df_valid` in the source). -/
structure BetRecord where
  round_id : Nat
  lottery : Nat
  account : Nat
  direction : String
  amount : ℚ
deriving DecidableEq, Repr

/-- The activity-tier thresholds of `Config.period_thresholds`
(`src/app.py:49-59`).  The two unused keys `medium_activity_low` and
`high_activity_low` are omitted (never read by the detection code). -/
structure PeriodThresholds where
  low_activity : Nat
  medium_activity_high : Nat
  high_activity_high : Nat
  min_periods_low : Nat
  min_periods_medium : Nat
  min_periods_high : Nat
  min_periods_very_high : Nat
deriving DecidableEq, Repr

/-- The configuration surface consumed by the detection core
(`Config.__init__`, `src/app.py:29-125`).  `opposite_groups` entries are the
two-element direction sets of the source, represented as ordered pairs in
declaration order.  Only fields read by the detection code are modelled. -/
structure Config where
  min_amount : ℚ
  amount_similarity_threshold : ℚ
  max_accounts_in_group : Nat
  period_thresholds : PeriodThresholds
  account_count_similarity_thresholds : List (Nat × ℚ)
  account_period_diff_threshold : Nat
  opposite_groups : List (String × String)
deriving DecidableEq, Repr

/-- The default configuration values of `Config.__init__` (`src/app.py:31-125`).
The float thresholds 0.8, 0.85, 0.9, 0.95 are the exact rationals the source
denotes. -/
def defaultConfig : Config where
  min_amount := 10
  amount_similarity_threshold := mkRat 8 10
  max_accounts_in_group := 5
  period_thresholds :=
    { low_activity := 10
      medium_activity_high := 50
      high_activity_high := 100
      min_periods_low := 3
      min_periods_medium := 5
      min_periods_high := 8
      min_periods_very_high := 11 }
  account_count_similarity_thresholds :=
    [(2, mkRat 8 10), (3, mkRat 85 100), (4, mkRat 9 10), (5, mkRat 95 100)]
  account_period_diff_threshold := 150
  opposite_groups :=
    [("大", "小"), ("单", "双"), ("龙", "虎"), ("质", "合"), ("家", "野"),
     ("特大", "特小"), ("特单", "特双"), ("总和大", "总和小"), ("总和单", "总和双"),
     ("三军大", "三军小"), ("三军单", "三军双")]

/-! ## Activity profiler (`calculate_account_total_periods_by_lottery`, src/app.py:1653-1667) -/

/-- The rows of `df` for one (lottery, account) pair
(`df_lottery.groupby('会员账号')` member selection). -/
def accountRows (df : List BetRecord) (l a : Nat) : List BetRecord :=
  df.filter (fun r => r.lottery == l && r.account == a)

/-- Whether `lottery in self.account_total_periods_by_lottery`: the dictionary
built at src/app.py:1660 has exactly the lottery values occurring in `df` as
keys. -/
def lottery_in_stats (df : List BetRecord) (l : Nat) : Bool :=
  df.any (fun r => r.lottery == l)

/-- Whether `account in total_periods_stats` for the given lottery: the inner
dictionary has exactly the accounts with at least one row in that lottery. -/
def account_in_stats (df : List BetRecord) (l a : Nat) : Bool :=
  df.any (fun r => r.lottery == l && r.account == a)

/-- `account_total_periods_by_lottery[lottery][account]`:
`df_lottery.groupby('会员账号')['期号'].nunique()` — the number of distinct
round ids the account bet on in the lottery (0 when absent, matching
`dict.get(account, 0)`). -/
def total_periods (df : List BetRecord) (l a : Nat) : Nat :=
  (((accountRows df l a).map (fun r => r.round_id)).dedup).length

/-- `account_record_stats_by_lottery[lottery][account]`:
`df_lottery.groupby('会员账号').size()` — the account's row count in the
lottery. -/
def total_records (df : List BetRecord) (l a : Nat) : Nat :=
  (accountRows df l a).length

/-! ## Period-disparity check (`_check_account_period_difference`, src/app.py:1945-1975) -/

/-- The loop at src/app.py:1953-1959: collect each group member's
`total_periods` value, aborting (`return True` in the source) as soon as a
member is missing from the stats. -/
def collectPeriods (df : List BetRecord) (l : Nat) : List Nat → Option (List Nat)
  | [] => some []
  | a :: rest =>
    if account_in_stats df l a then
      (collectPeriods df l rest).map (fun ps => total_periods df l a :: ps)
    else
      none

/-- `_check_account_period_difference(account_group, lottery)`: `true` means
the combination is allowed. -/
def _check_account_period_difference (df : List BetRecord) (cfg : Config)
    (group : List Nat) (l : Nat) : Bool :=
  if ¬ lottery_in_stats df l then
    true
  else
    match collectPeriods df l group with
    | none => true
    | some ps =>
      match ps with
      | [] => true
      | p :: rest =>
        if (p :: rest).length < 2 then true
        else rest.foldl max p - rest.foldl min p ≤ cfg.account_period_diff_threshold

/-- `max(account_periods) - min(account_periods)` over a group whose members
are looked up in the per-lottery stats (0 on an empty group). -/
def periodSpread (df : List BetRecord) (l : Nat) (group : List Nat) : Nat :=
  match group.map (fun a => total_periods df l a) with
  | [] => 0
  | p :: rest => rest.foldl max p - rest.foldl min p

/-! ## Direction combinations (`_get_valid_direction_combinations`, src/app.py:1743-1775) -/

/-- One entry of `valid_combinations`: the dict
`{'directions': .., 'dir1_count': .., 'dir2_count': .., 'opposite_type': ..}`. -/
structure DirCombo where
  directions : List String
  dir1_count : Nat
  dir2_count : Nat
  opposite_type : String
deriving DecidableEq, Repr

/-- The hard-coded position list of src/app.py:1760-1762. -/
def positions : List String :=
  ["冠军", "亚军", "季军", "第四名", "第五名", "第六名",
   "第七名", "第八名", "第九名", "第十名",
   "百位", "十位", "个位", "第1球", "第2球", "第3球", "第4球", "第5球"]

/-- `_get_valid_direction_combinations(n_accounts)`: combinations are produced
only for `n_accounts == 2` (base opposite pairs first, then every position
paired with every opposite pair); for any other group size the list is empty. -/
def _get_valid_direction_combinations (cfg : Config) (n : Nat) : List DirCombo :=
  if n == 2 then
    (cfg.opposite_groups.map (fun p =>
      { directions := [p.1, p.2], dir1_count := 1, dir2_count := 1,
        opposite_type := p.1 ++ "-" ++ p.2 }))
    ++ positions.flatMap (fun pos =>
        cfg.opposite_groups.map (fun p =>
          { directions := [pos ++ "-" ++ p.1, pos ++ "-" ++ p.2],
            dir1_count := 1, dir2_count := 1,
            opposite_type := pos ++ "-" ++ p.1 ++ " vs " ++ pos ++ "-" ++ p.2 }))
  else
    []

/-! ## Smart opposite identification (`_identify_opposite_type`, src/app.py:1777-1810) -/

/-- Membership of a direction in a two-element opposite set. -/
def pairMem (d : String) (p : String × String) : Bool := d == p.1 || d == p.2

/-- The hard-coded `direction_pairs` list of src/app.py:1798-1803. -/
def direction_pairs : List (String × String) :=
  [("大", "小"), ("单", "双"), ("龙", "虎"), ("质", "合"),
   ("家", "野"), ("特大", "特小"), ("特单", "特双"),
   ("总和大", "总和小"), ("总和单", "总和双"),
   ("三军大", "三军小"), ("三军单", "三军双")]

/-- Split a character list at the first `-`. -/
def breakAtDash : List Char → Option (List Char × List Char)
  | [] => none
  | c :: cs =>
    if c == '-' then some ([], cs)
    else (breakAtDash cs).map (fun pr => (c :: pr.1, pr.2))

/-- Python `s.split('-', 1)`: split at the first `-`; `none` when `-` does not
occur (so the source would raise `ValueError`, guarded by the caller). -/
def splitPos (s : String) : Option (String × String) :=
  (breakAtDash s.data).map (fun pr => (String.mk pr.1, String.mk pr.2))

/-- Substring containment on character lists. -/
def infixOfChars (pat : List Char) : List Char → Bool
  | [] => pat.isEmpty
  | c :: cs => pat.isPrefixOf (c :: cs) || infixOfChars pat cs

/-- Python substring test `pat in s` (substring containment on characters). -/
def containsSub (s pat : String) : Bool := infixOfChars pat.data s.data

/-- Python `'-' in s` (character containment). -/
def containsChar (s : String) (c : Char) : Bool := s.data.contains c

/-- `_identify_opposite_type(direction1, direction2)`. -/
def _identify_opposite_type (cfg : Config) (d1 d2 : String) : String :=
  match cfg.opposite_groups.find? (fun p => pairMem d1 p && pairMem d2 p) with
  | some _ => d1 ++ "-" ++ d2
  | none =>
    let posCase : Option String :=
      if containsChar d1 '-' && containsChar d2 '-' then
        match splitPos d1, splitPos d2 with
        | some pd1, some pd2 =>
          if pd1.1 == pd2.1 then
            match cfg.opposite_groups.find? (fun p => pairMem pd1.2 p && pairMem pd2.2 p) with
            | some _ => some (pd1.1 ++ "-" ++ pd1.2 ++ " vs " ++ pd2.1 ++ "-" ++ pd2.2)
            | none => none
          else none
        | _, _ => none
      else none
    match posCase with
    | some s => s
    | none =>
      match direction_pairs.find? (fun p =>
          (d1 == p.1 && d2 == p.2) || (d1 == p.2 && d2 == p.1)) with
      | some p => p.1 ++ "-" ++ p.2
      | none => d1 ++ "-" ++ d2

/-! ## Per-round combination detection (`_detect_combinations_for_period`, src/app.py:1812-1920) -/

/-- One entry of the `wash_records` list: the dict built at src/app.py:1904-1916.
The string field 模式 (a display string derived from `opposite_type` and the
direction counts) and 彩种类型 are omitted; the two side totals and the
reference direction `dir1`, which the source keeps in the locals `dir1_total`,
`dir2_total` and `dir1` (with 总金额 = their sum), are kept as fields so the
claims about them can be stated. -/
structure WashRecord where
  round_id : Nat
  lottery : Nat
  account_group : List Nat
  direction_group : List String
  amount_group : List ℚ
  total_amount : ℚ
  similarity : ℚ
  n_accounts : Nat
  opposite_type : String
  dir1 : String
  dir1_total : ℚ
  dir2_total : ℚ
deriving DecidableEq, Repr

/-- `account_info[account]`: the (direction, amount) pairs of the account's
rows in the period data, in row order (src/app.py:1820-1831). -/
def account_bets (period_data : List BetRecord) (a : Nat) : List (String × ℚ) :=
  ((period_data.filter (fun r => r.account == a)).map (fun r => (r.direction, r.amount)))

/-- The loop at src/app.py:1842-1846: for each group member with a non-empty
bet list take its FIRST bet (`account_info[account][0]`). -/
def firstBets (period_data : List BetRecord) (group : List Nat) : List (String × ℚ) :=
  group.filterMap (fun a => (account_bets period_data a).head?)

/-- The matching loop at src/app.py:1852-1861: the first combination whose
sorted direction list equals the group's sorted direction list (sorted-list
equality is multiset equality, tested here by `List.isPerm`). -/
def matchCombo (valid : List DirCombo) (dirs : List String) : Option DirCombo :=
  valid.find? (fun c => dirs.isPerm c.directions)

/-- `itertools.combinations`: all k-element sublists in the order Python
enumerates them. -/
def combinations : Nat → List α → List (List α)
  | 0, _ => [[]]
  | _ + 1, [] => []
  | n + 1, x :: xs => ((combinations n xs).map (fun g => x :: g)) ++ combinations (n + 1) xs

/-- The body of the `for account_group in combinations(...)` loop of
`_detect_combinations_for_period` (src/app.py:1834-1918): `some` of the wash
record when the group passes every test, `none` when the source `continue`s
or falls through. -/
def evalGroup (stats_df : List BetRecord) (cfg : Config) (period_data : List BetRecord)
    (valid : List DirCombo) (n : Nat) (lottery : Nat) (group : List Nat) :
    Option WashRecord :=
  if _check_account_period_difference stats_df cfg group lottery then
    let bets := firstBets period_data group
    let group_directions := bets.map (fun b => b.1)
    let group_amounts := bets.map (fun b => b.2)
    if group_directions.length = n then
      let matched : Option DirCombo :=
        match matchCombo valid group_directions with
        | some c => some c
        | none =>
          if n == 2 then
            match group_directions with
            | [d1, d2] =>
              let t := _identify_opposite_type cfg d1 d2
              if containsChar t '-' && ¬ containsSub t "vs" then
                some { directions := [d1, d2], dir1_count := 1, dir2_count := 1,
                       opposite_type := t }
              else none
            | _ => none
          else none
      match matched with
      | none => none
      | some combo =>
        let dir1 := combo.directions.headD ""
        let dir1_total := qsum ((bets.filter (fun b => b.1 == dir1)).map (fun b => b.2))
        let dir2_total := qsum ((bets.filter (fun b => ¬ b.1 == dir1)).map (fun b => b.2))
        let thr := (((cfg.account_count_similarity_thresholds.find?
            (fun kv => kv.1 == n)).map (fun kv => kv.2)).getD
            cfg.amount_similarity_threshold)
        if 0 < dir1_total ∧ 0 < dir2_total then
          let sim := qdiv (min dir1_total dir2_total) (max dir1_total dir2_total)
          if thr ≤ sim then
            some { round_id := ((period_data.head?.map (fun r => r.round_id)).getD 0)
                   lottery := lottery
                   account_group := group
                   direction_group := group_directions
                   amount_group := group_amounts
                   total_amount := qadd dir1_total dir2_total
                   similarity := sim
                   n_accounts := n
                   opposite_type := combo.opposite_type
                   dir1 := dir1
                   dir1_total := dir1_total
                   dir2_total := dir2_total }
          else none
        else none
    else none
  else none

/-- `_detect_combinations_for_period(period_data, period_accounts, n_accounts,
valid_combinations)`. -/
def _detect_combinations_for_period (stats_df : List BetRecord) (cfg : Config)
    (period_data : List BetRecord) (period_accounts : List Nat) (n : Nat)
    (valid : List DirCombo) : List WashRecord :=
  let lottery := (period_data.head?.map (fun r => r.lottery)).getD 0
  (combinations n period_accounts).filterMap
    (evalGroup stats_df cfg period_data valid n lottery)

/-! ## Per-size detection (`detect_n_account_patterns_optimized`, src/app.py:1715-1741) -/

/-- Distinct values in first-occurrence order (`pandas.unique` /
insertion-ordered dict keys). -/
def uniqueKeep [DecidableEq α] (l : List α) : List α := l.reverse.dedup.reverse

/-- Lexicographic order on groupby keys (pandas sorts group keys). -/
def keyLe (a b : Nat × Nat) : Prop := a.1 < b.1 ∨ (a.1 = b.1 ∧ a.2 ≤ b.2)

instance : DecidableRel keyLe := fun a b => by
  unfold keyLe
  infer_instance

/-- The `(期号, 原始彩种)` group keys of `df_filtered.groupby(['期号','原始彩种'])`,
in pandas' sorted order. -/
def periodKeys (df : List BetRecord) : List (Nat × Nat) :=
  List.insertionSort keyLe (uniqueKeep (df.map (fun r => (r.round_id, r.lottery))))

/-- The rows of one groupby partition. -/
def periodRows (df : List BetRecord) (k : Nat × Nat) : List BetRecord :=
  df.filter (fun r => r.round_id == k.1 && r.lottery == k.2)

/-- The `wash_records` list accumulated by `detect_n_account_patterns_optimized`
before the final aggregation call (src/app.py:1717-1740); the batching by 100
keys is pure chunking of the same sequential iteration and is not modelled. -/
def detect_n_account_candidates (stats_df : List BetRecord) (cfg : Config)
    (df_filtered : List BetRecord) (n : Nat) : List WashRecord :=
  let valid := _get_valid_direction_combinations cfg n
  (periodKeys df_filtered).flatMap (fun k =>
    let pd := periodRows df_filtered k
    let accounts := uniqueKeep (pd.map (fun r => r.account))
    if accounts.length < n then []
    else _detect_combinations_for_period stats_df cfg pd accounts n valid)

/-! ## Aggregation (`find_continuous_patterns_optimized`, src/app.py:1977-2055) -/

/-- `(tuple(sorted(record['账户组'])), record['彩种'])`. -/
def groupKey (r : WashRecord) : List Nat × Nat :=
  (List.insertionSort (· ≤ ·) r.account_group, r.lottery)

/-- The records collected under one group key. -/
def recordsFor (records : List WashRecord) (k : List Nat × Nat) : List WashRecord :=
  records.filter (fun r => groupKey r == k)

/-- `sorted(records, key=lambda x: x['期号'])`. -/
def sortByRound (l : List WashRecord) : List WashRecord :=
  List.insertionSort (fun a b => a.round_id ≤ b.round_id) l

/-- `min(total_periods_stats.get(account, 0) for account in account_group)`:
the minimum per-lottery round count over the group (an account missing from
the stats contributes 0, which is also its `total_periods` value). -/
def minTotalPeriods (stats_df : List BetRecord) (lottery : Nat) (group : List Nat) : Nat :=
  match group.map (fun a => total_periods stats_df lottery a) with
  | [] => 0
  | p :: rest => rest.foldl min p

/-- `get_account_group_activity_level(account_group, lottery)`
(src/app.py:2142-2160). -/
def get_account_group_activity_level (stats_df : List BetRecord) (cfg : Config)
    (group : List Nat) (lottery : Nat) : String :=
  if ¬ lottery_in_stats stats_df lottery then "unknown"
  else
    let minp : Nat := minTotalPeriods stats_df lottery group
    if minp ≤ cfg.period_thresholds.low_activity then "low"
    else if minp ≤ cfg.period_thresholds.medium_activity_high then "medium"
    else if minp ≤ cfg.period_thresholds.high_activity_high then "high"
    else "very_high"

/-- `get_required_min_periods(account_group, lottery)` (src/app.py:2162-2173). -/
def get_required_min_periods (stats_df : List BetRecord) (cfg : Config)
    (group : List Nat) (lottery : Nat) : Nat :=
  let lvl := get_account_group_activity_level stats_df cfg group lottery
  if lvl == "low" then cfg.period_thresholds.min_periods_low
  else if lvl == "medium" then cfg.period_thresholds.min_periods_medium
  else if lvl == "high" then cfg.period_thresholds.min_periods_high
  else cfg.period_thresholds.min_periods_very_high

/-- One confirmed pattern: the dict built at src/app.py:2038-2053.  The display
fields 主要对立类型, 模式分布, 账户统计信息 and 彩种类型 (string formatting of
data already present here) are omitted. -/
structure GroupPattern where
  account_group : List Nat
  lottery : Nat
  n_accounts : Nat
  periods : Nat
  total_investment : ℚ
  avg_similarity : ℚ
  opposite_type_counts : List (String × Nat)
  records : List WashRecord
  activity_level : String
  required_min_periods : Nat
deriving DecidableEq, Repr

/-- `find_continuous_patterns_optimized(wash_records)` (src/app.py:1977-2055). -/
def find_continuous_patterns_optimized (stats_df : List BetRecord) (cfg : Config)
    (wash_records : List WashRecord) : List GroupPattern :=
  (uniqueKeep (wash_records.map groupKey)).filterMap (fun k =>
    let sorted_records := sortByRound (recordsFor wash_records k)
    let required := get_required_min_periods stats_df cfg k.1 k.2
    if required ≤ sorted_records.length then
      let sims := sorted_records.map (fun r => r.similarity)
      some { account_group := k.1
             lottery := k.2
             n_accounts := k.1.length
             periods := sorted_records.length
             total_investment := qsum (sorted_records.map (fun r => r.total_amount))
             avg_similarity :=
               if sims.length = 0 then 0 else qdiv (qsum sims) ((sims.length : Int) : ℚ)
             opposite_type_counts :=
               (uniqueKeep (sorted_records.map (fun r => r.opposite_type))).map
                 (fun t => (t, (sorted_records.filter (fun r => r.opposite_type == t)).length))
             records := sorted_records
             activity_level := get_account_group_activity_level stats_df cfg k.1 k.2
             required_min_periods := required }
    else none)

/-- `detect_n_account_patterns_optimized(df_filtered, n_accounts)`. -/
def detect_n_account_patterns_optimized (stats_df : List BetRecord) (cfg : Config)
    (df_filtered : List BetRecord) (n : Nat) : List GroupPattern :=
  find_continuous_patterns_optimized stats_df cfg
    (detect_n_account_candidates stats_df cfg df_filtered n)

/-! ## Single-direction filter (`exclude_multi_direction_accounts`, src/app.py:2131-2140) -/

/-- `exclude_multi_direction_accounts(df_valid)`: drop every row whose
(round_id, account) pair used more than one distinct direction — the grouping
is by `['期号', '会员账号']` only, the lottery column does not participate. -/
def exclude_multi_direction_accounts (df_valid : List BetRecord) : List BetRecord :=
  df_valid.filter (fun r =>
    (uniqueKeep ((df_valid.filter (fun s =>
        s.round_id == r.round_id && s.account == r.account)).map
        (fun s => s.direction))).length ≤ 1)

/-! ## Pipeline (`enhance_data_processing` + `detect_all_wash_trades`, src/app.py:1146-1329, 1669-1713) -/

/-- The validity filter of `enhance_data_processing` (src/app.py:1266-1269):
keep rows with a non-empty extracted direction and amount ≥ `min_amount`. -/
def df_valid_filter (cfg : Config) (df : List BetRecord) : List BetRecord :=
  df.filter (fun r => (¬ r.direction == "") && cfg.min_amount ≤ r.amount)

/-- `detect_all_wash_trades()` (src/app.py:1669-1713): run the per-size
detection for every group size 2..max_accounts_in_group on the
single-direction-filtered data.  `stats_df` is the data the activity stats
were computed from. -/
def detect_all_wash_trades (stats_df : List BetRecord) (cfg : Config)
    (df_valid : List BetRecord) : List GroupPattern :=
  let df_filtered := exclude_multi_direction_accounts df_valid
  if df_filtered.length = 0 then []
  else
    (List.range' 2 (cfg.max_accounts_in_group - 1)).flatMap (fun n =>
      detect_n_account_patterns_optimized stats_df cfg df_filtered n)

/-- The full run on a cleaned batch: `enhance_data_processing` computes the
activity stats from `df_clean` BEFORE the validity filter
(src/app.py:1161 precedes 1266), then `detect_all_wash_trades` runs on the
filtered rows; an empty filtered set aborts with no results. -/
def run_detection (cfg : Config) (df_clean : List BetRecord) : List GroupPattern :=
  let dfv := df_valid_filter cfg df_clean
  if dfv.length = 0 then []
  else detect_all_wash_trades df_clean cfg dfv

/-- Modelled from the spec: the same pipeline but with the
`AccountLotteryStat` table computed from the FILTERED records, as §4.2 of the
spec states ("input = filtered BetRecords").  Used only to compare against
`run_detection`, which is what the code does. -/
def run_detection_statsFromFiltered (cfg : Config) (df_clean : List BetRecord) :
    List GroupPattern :=
  let dfv := df_valid_filter cfg df_clean
  if dfv.length = 0 then []
  else detect_all_wash_trades dfv cfg dfv

/-! ## Concrete data used by the claim theorems -/

/-- Scenario D data (claim C1): three accounts splitting 2-vs-1 on 单/双
(Odd/Even) with matching side totals (100+100 vs 200) in one round. -/
def dfC1 : List BetRecord :=
  [⟨1, 1, 1, "单", 100⟩, ⟨1, 1, 2, "单", 100⟩, ⟨1, 1, 3, "双", 200⟩]

/-- Claim C2 data: account 1 has TWO same-direction records (100 and 37 on 大)
in round 1; account 2 bets 100 on 小. -/
def dfC2 : List BetRecord :=
  [⟨1, 1, 1, "大", 100⟩, ⟨1, 1, 1, "大", 37⟩, ⟨1, 1, 2, "小", 100⟩]

/-- Claims C3/C4/C5 data: in lottery 1, account 1 bets in round 1 only while
account 2 bets in rounds 1-4 (so their `total_rounds` are 1 and 4); account 3
has no records at all. -/
def dfC3 : List BetRecord :=
  [⟨1, 1, 1, "大", 100⟩, ⟨1, 1, 2, "小", 100⟩, ⟨2, 1, 2, "小", 100⟩,
   ⟨3, 1, 2, "小", 100⟩, ⟨4, 1, 2, "小", 100⟩]

/-- A configuration with `max_period_disparity` 2, so that dfC3's spread of 3
trips the disparity rule. -/
def cfgC3 : Config := { defaultConfig with account_period_diff_threshold := 2 }

/-- Claim C6 data: accounts 1 and 2 wash-trade rounds 1-4 with valid records,
and additionally both hold below-minimum (amount 1) records in rounds 5-24
that the validity filter drops. -/
def dfC6 : List BetRecord :=
  [⟨1, 1, 1, "大", 100⟩, ⟨1, 1, 2, "小", 100⟩,
   ⟨2, 1, 1, "大", 100⟩, ⟨2, 1, 2, "小", 100⟩,
   ⟨3, 1, 1, "大", 100⟩, ⟨3, 1, 2, "小", 100⟩,
   ⟨4, 1, 1, "大", 100⟩, ⟨4, 1, 2, "小", 100⟩]
  ++ (List.range' 5 20).flatMap (fun i => [⟨i, 1, 1, "大", 1⟩, ⟨i, 1, 2, "小", 1⟩])

/-- Claims C7/C8/C9 data: one malformed record (empty direction, amount 5
below the minimum 10) followed by three rounds of perfectly matched
opposite bets by accounts 1 and 2. -/
def dfC7 : List BetRecord :=
  [⟨1, 1, 1, "", 5⟩, ⟨1, 1, 1, "大", 100⟩, ⟨1, 1, 2, "小", 100⟩,
   ⟨2, 1, 1, "大", 100⟩, ⟨2, 1, 2, "小", 100⟩,
   ⟨3, 1, 1, "大", 100⟩, ⟨3, 1, 2, "小", 100⟩]

/-- Claim C10 data: account 7 bets two different directions under round id 1
in two DIFFERENT lotteries; account 8 has two same-direction duplicate rows
in round 2. -/
def df10 : List BetRecord :=
  [⟨1, 1, 7, "大", 100⟩, ⟨1, 2, 7, "小", 50⟩,
   ⟨2, 1, 8, "大", 10⟩, ⟨2, 1, 8, "大", 20⟩]

/-- The candidate the engine emits for round `i` of `dfC7` (and, for `i = 1`,
also for `dfC2`). -/
def mkWr (i : Nat) : WashRecord :=
  { round_id := i, lottery := 1, account_group := [1, 2],
    direction_group := ["大", "小"], amount_group := [100, 100],
    total_amount := 200, similarity := 1, n_accounts := 2,
    opposite_type := "大-小", dir1 := "大", dir1_total := 100, dir2_total := 100 }

/-- The pattern the engine emits on `dfC7`. -/
def patC7 : GroupPattern :=
  { account_group := [1, 2], lottery := 1, n_accounts := 2, periods := 3,
    total_investment := 600, avg_similarity := 1,
    opposite_type_counts := [("大-小", 3)],
    records := [mkWr 1, mkWr 2, mkWr 3],
    activity_level := "low", required_min_periods := 3 }

/-- A concrete candidate record list for exercising the aggregator. -/
def recsC4 : List WashRecord := [mkWr 1, mkWr 2, mkWr 3]

/-- The first configured direction combination for group size 2
(declaration-order head of the 大/小 pair). -/
def comboBS : DirCombo :=
  { directions := ["大", "小"], dir1_count := 1, dir2_count := 1, opposite_type := "大-小" }

/-! ## Helper lemmas -/

theorem mem_uniqueKeep [DecidableEq α] {a : α} {l : List α} :
    a ∈ uniqueKeep l ↔ a ∈ l := by
  simp [uniqueKeep]

theorem nodup_uniqueKeep [DecidableEq α] (l : List α) : (uniqueKeep l).Nodup := by
  simpa [uniqueKeep] using l.reverse.nodup_dedup

theorem two_le_length_of_two_mem {x y : α} {l : List α}
    (hx : x ∈ l) (hy : y ∈ l) (hxy : x ≠ y) : 2 ≤ l.length := by
  match l with
  | [] => cases hx
  | [c] =>
    rw [List.mem_singleton] at hx hy
    exact absurd (hx.trans hy.symm) hxy
  | c :: d :: ds =>
    simp only [List.length]
    omega

theorem uniqueKeep_length_le_one [DecidableEq α] {l : List α}
    (h : ∀ x ∈ l, ∀ y ∈ l, x = y) : (uniqueKeep l).length ≤ 1 := by
  match hu : uniqueKeep l with
  | [] => simp
  | [x] => simp
  | x :: y :: ys =>
    have hx : x ∈ uniqueKeep l := by rw [hu]; exact List.mem_cons_self _ _
    have hy : y ∈ uniqueKeep l := by rw [hu]; exact List.mem_cons_of_mem _ (List.mem_cons_self _ _)
    have hnd := nodup_uniqueKeep l
    rw [hu] at hnd
    have hxy : x ≠ y := by
      intro he
      exact (List.nodup_cons.1 hnd).1 (he ▸ List.mem_cons_self _ _)
    exact absurd (h x (mem_uniqueKeep.1 hx) y (mem_uniqueKeep.1 hy)) hxy

theorem length_of_mem_combinations :
    ∀ {n : Nat} {l g : List α}, g ∈ combinations n l → g.length = n
  | 0, l, g, h => by
    simp only [combinations, List.mem_singleton] at h
    simp [h]
  | n + 1, [], g, h => by simp [combinations] at h
  | n + 1, x :: xs, g, h => by
    simp only [combinations, List.mem_append, List.mem_map] at h
    rcases h with ⟨g₀, hg₀, rfl⟩ | h
    · simp [length_of_mem_combinations hg₀]
    · exact length_of_mem_combinations h

theorem seed_le_foldl_max (l : List Nat) : ∀ a, a ≤ l.foldl max a := by
  induction l with
  | nil => intro a; simp [List.foldl]
  | cons y ys ih =>
    intro a
    exact le_trans (le_max_left a y) (ih (max a y))

theorem mem_le_foldl_max (l : List Nat) : ∀ a, ∀ x ∈ l, x ≤ l.foldl max a := by
  induction l with
  | nil => intro a x h; cases h
  | cons y ys ih =>
    intro a x h
    rcases List.mem_cons.1 h with rfl | h
    · exact le_trans (le_max_right a x) (seed_le_foldl_max ys (max a x))
    · exact ih (max a y) x h

theorem foldl_min_le_seed (l : List Nat) : ∀ a, l.foldl min a ≤ a := by
  induction l with
  | nil => intro a; simp [List.foldl]
  | cons y ys ih =>
    intro a
    exact le_trans (ih (min a y)) (min_le_left a y)

theorem foldl_min_le_mem (l : List Nat) : ∀ a, ∀ x ∈ l, l.foldl min a ≤ x := by
  induction l with
  | nil => intro a x h; cases h
  | cons y ys ih =>
    intro a x h
    rcases List.mem_cons.1 h with rfl | h
    · exact le_trans (foldl_min_le_seed ys (min a x)) (min_le_right a x)
    · exact ih (min a y) x h

theorem lottery_in_of_account_in {df : List BetRecord} {l a : Nat}
    (h : account_in_stats df l a = true) : lottery_in_stats df l = true := by
  rw [account_in_stats, List.any_eq_true] at h
  obtain ⟨r, hr, hprop⟩ := h
  rw [Bool.and_eq_true] at hprop
  rw [lottery_in_stats, List.any_eq_true]
  exact ⟨r, hr, hprop.1⟩

theorem collectPeriods_all {df : List BetRecord} {l : Nat} :
    ∀ {g : List Nat}, (∀ a ∈ g, account_in_stats df l a = true) →
      collectPeriods df l g = some (g.map (fun a => total_periods df l a)) := by
  intro g
  induction g with
  | nil => intro _; rfl
  | cons a rest ih =>
    intro h
    rw [collectPeriods, if_pos (h a (List.mem_cons_self _ _)),
      ih (fun b hb => h b (List.mem_cons_of_mem _ hb))]
    rfl

theorem collectPeriods_missing {df : List BetRecord} {l b : Nat} :
    ∀ {g : List Nat}, b ∈ g → account_in_stats df l b = false →
      collectPeriods df l g = none := by
  intro g
  induction g with
  | nil => intro h; cases h
  | cons a rest ih =>
    intro hb hmiss
    rcases List.mem_cons.1 hb with rfl | hb
    · rw [collectPeriods, if_neg (by simp [hmiss])]
    · rw [collectPeriods]
      split
      · rw [ih hb hmiss]; rfl
      · rfl

theorem check_eq_spread_le {df : List BetRecord} {cfg : Config} {group : List Nat} {l : Nat}
    (hall : ∀ a ∈ group, account_in_stats df l a = true) (hlen : 2 ≤ group.length) :
    _check_account_period_difference df cfg group l
      = decide (periodSpread df l group ≤ cfg.account_period_diff_threshold) := by
  obtain ⟨b, rest, rfl⟩ : ∃ b rest, group = b :: rest := by
    cases group with
    | nil => simp at hlen
    | cons b rest => exact ⟨b, rest, rfl⟩
  have hlot := lottery_in_of_account_in (hall b (List.mem_cons_self _ _))
  rw [_check_account_period_difference, if_neg (by simp [hlot]), collectPeriods_all hall]
  have hlen2 : ¬ ((b :: rest).map (fun a => total_periods df l a)).length < 2 := by
    rw [List.length_map]
    omega
  simp only [List.map_cons, periodSpread]
  rw [if_neg (by simpa using hlen2)]

theorem sub_le_periodSpread {df : List BetRecord} {l : Nat} {group : List Nat} {a b : Nat}
    (ha : a ∈ group) (hb : b ∈ group) :
    total_periods df l a - total_periods df l b ≤ periodSpread df l group := by
  obtain ⟨c, rest, rfl⟩ : ∃ c rest, group = c :: rest := by
    cases group with
    | nil => cases ha
    | cons c rest => exact ⟨c, rest, rfl⟩
  rw [periodSpread]
  simp only [List.map_cons]
  have hpa : total_periods df l a ≤
      (rest.map (fun x => total_periods df l x)).foldl max (total_periods df l c) := by
    rcases List.mem_cons.1 ha with rfl | ha
    · exact seed_le_foldl_max _ _
    · exact mem_le_foldl_max _ _ _ (List.mem_map_of_mem _ ha)
  have hpb : (rest.map (fun x => total_periods df l x)).foldl min (total_periods df l c) ≤
      total_periods df l b := by
    rcases List.mem_cons.1 hb with rfl | hb
    · exact foldl_min_le_seed _ _
    · exact foldl_min_le_mem _ _ _ (List.mem_map_of_mem _ hb)
  omega

/-- Inversion on a successful `evalGroup`: everything the emission branch of
`_detect_combinations_for_period` guarantees about the emitted record. -/
theorem evalGroup_eq_some {stats_df : List BetRecord} {cfg : Config}
    {period_data : List BetRecord} {valid : List DirCombo} {n lottery : Nat}
    {group : List Nat} {r : WashRecord}
    (h : evalGroup stats_df cfg period_data valid n lottery group = some r) :
    r.account_group = group
    ∧ r.lottery = lottery
    ∧ r.n_accounts = n
    ∧ _check_account_period_difference stats_df cfg group lottery = true
    ∧ r.direction_group = (firstBets period_data group).map (fun b => b.1)
    ∧ r.amount_group = (firstBets period_data group).map (fun b => b.2)
    ∧ r.direction_group.length = n
    ∧ r.dir1_total = qsum (((firstBets period_data group).filter
        (fun b => b.1 == r.dir1)).map (fun b => b.2))
    ∧ r.dir2_total = qsum (((firstBets period_data group).filter
        (fun b => ¬ b.1 == r.dir1)).map (fun b => b.2))
    ∧ (0 < r.dir1_total ∧ 0 < r.dir2_total)
    ∧ r.similarity = qdiv (min r.dir1_total r.dir2_total) (max r.dir1_total r.dir2_total)
    ∧ r.total_amount = qadd r.dir1_total r.dir2_total
    ∧ (∀ c, matchCombo valid r.direction_group = some c →
        r.opposite_type = c.opposite_type ∧ r.dir1 = c.directions.headD "") := by
  simp only [evalGroup] at h
  split at h
  case isFalse hchk => exact absurd h (by simp)
  case isTrue hchk =>
  split at h
  case isFalse hlen => exact absurd h (by simp)
  case isTrue hlen =>
  split at h
  case h_1 heq => exact absurd h (by simp)
  case h_2 combo heq =>
  split at h
  case isFalse hpos => exact absurd h (by simp)
  case isTrue hpos =>
  split at h
  case isFalse hsim => exact absurd h (by simp)
  case isTrue hsim =>
  injection h with h2
  subst h2
  refine ⟨rfl, rfl, rfl, hchk, rfl, rfl, hlen, rfl, rfl, hpos, rfl, rfl, ?_⟩
  intro c0 hc0
  dsimp only at hc0 ⊢
  cases hmc : matchCombo valid ((firstBets period_data group).map (fun b => b.1)) with
  | none =>
    rw [hmc] at hc0
    cases hc0
  | some c1 =>
    rw [hmc] at heq hc0
    simp only [Option.some.injEq] at heq hc0
    subst heq
    subst hc0
    exact ⟨rfl, rfl⟩

/-- Every candidate record comes from a successful `evalGroup` on a group of
exactly `n` accounts, with the record's own lottery. -/
theorem mem_detect_n_candidates {stats_df : List BetRecord} {cfg : Config}
    {df_filtered : List BetRecord} {n : Nat} {r : WashRecord}
    (h : r ∈ detect_n_account_candidates stats_df cfg df_filtered n) :
    ∃ pd group, group.length = n ∧
      evalGroup stats_df cfg pd (_get_valid_direction_combinations cfg n) n
        r.lottery group = some r := by
  rw [detect_n_account_candidates, List.mem_flatMap] at h
  obtain ⟨k, _, hr⟩ := h
  simp only [] at hr
  split at hr
  · cases hr
  · rw [_detect_combinations_for_period, List.mem_filterMap] at hr
    obtain ⟨g, hg, he⟩ := hr
    refine ⟨periodRows df_filtered k, g, length_of_mem_combinations hg, ?_⟩
    rw [(evalGroup_eq_some he).2.1]
    exact he

/-- Every pattern emitted by the aggregator corresponds to a key of the
candidate records, carries the sorted record list of that key, and passed the
minimum-rounds admission test. -/
theorem mem_find_continuous {stats_df : List BetRecord} {cfg : Config}
    {records : List WashRecord} {p : GroupPattern}
    (h : p ∈ find_continuous_patterns_optimized stats_df cfg records) :
    (∃ r ∈ records, groupKey r = (p.account_group, p.lottery))
    ∧ p.records = sortByRound (recordsFor records (p.account_group, p.lottery))
    ∧ p.periods = (recordsFor records (p.account_group, p.lottery)).length
    ∧ get_required_min_periods stats_df cfg p.account_group p.lottery ≤ p.periods := by
  rw [find_continuous_patterns_optimized, List.mem_filterMap] at h
  obtain ⟨k, hk, he⟩ := h
  simp only [] at he
  split at he
  case isFalse => cases he
  case isTrue hreq =>
    injection he with he
    subst he
    dsimp only
    have hkey : ((k.1 : List Nat), (k.2 : Nat)) = k := rfl
    rw [hkey]
    have hlen : (sortByRound (recordsFor records k)).length = (recordsFor records k).length :=
      (List.perm_insertionSort _ _).length_eq
    refine ⟨?_, rfl, hlen, ?_⟩
    · rw [mem_uniqueKeep, List.mem_map] at hk
      obtain ⟨r, hr, hgk⟩ := hk
      exact ⟨r, hr, hgk⟩
    · rw [hlen] at hreq
      rw [hlen]
      exact hreq

/-- Every pattern of a full run comes from some group size `n ≥ 2` applied to
the single-direction-filtered valid rows, with the activity stats taken from
the full cleaned batch. -/
theorem mem_run_detection {cfg : Config} {df : List BetRecord} {p : GroupPattern}
    (h : p ∈ run_detection cfg df) :
    ∃ n, 2 ≤ n ∧ p ∈ find_continuous_patterns_optimized df cfg
      (detect_n_account_candidates df cfg
        (exclude_multi_direction_accounts (df_valid_filter cfg df)) n) := by
  rw [run_detection] at h
  split at h
  · cases h
  · rw [detect_all_wash_trades] at h
    split at h
    · cases h
    · rw [List.mem_flatMap] at h
      obtain ⟨n, hn, hp⟩ := h
      rw [List.mem_range'_1] at hn
      rw [detect_n_account_patterns_optimized] at hp
      exact ⟨n, hn.1, hp⟩

/-- The rounds of an aggregated pattern are listed in ascending round_id
order. -/
theorem sorted_map_round (l : List WashRecord) :
    ((sortByRound l).map (fun r => r.round_id)).Sorted (· ≤ ·) := by
  rw [sortByRound]
  haveI : IsTotal WashRecord (fun a b => a.round_id ≤ b.round_id) :=
    ⟨fun a b => Nat.le_total a.round_id b.round_id⟩
  haveI : IsTrans WashRecord (fun a b => a.round_id ≤ b.round_id) :=
    ⟨fun _ _ _ hab hbc => Nat.le_trans hab hbc⟩
  have hs := List.sorted_insertionSort (fun a b : WashRecord => a.round_id ≤ b.round_id) l
  exact List.Pairwise.map _ (fun a b hab => hab) hs

/-- Zipping the two projections of a pair list recovers the list. -/
theorem zip_proj (l : List (α × β)) :
    (l.map (fun pr => pr.1)).zip (l.map (fun pr => pr.2)) = l := by
  induction l with
  | nil => rfl
  | cons x xs ih => simp [List.zip_cons_cons, ih]

/-- With an empty valid-combination list and a group size other than 2,
`evalGroup` can never emit. -/
theorem evalGroup_empty_none {stats_df : List BetRecord} {cfg : Config}
    {pd : List BetRecord} {n lottery : Nat} {group : List Nat} (hn : n ≠ 2) :
    evalGroup stats_df cfg pd [] n lottery group = none := by
  have hb : (n == 2) = false := by
    rw [beq_eq_false_iff_ne]
    exact hn
  rw [evalGroup]
  split
  · simp only [matchCombo, List.find?_nil, hb, Bool.false_eq_true, if_false]
    split <;> rfl
  · rfl

/-! ## Claim C1 -/

/-- C1 counterexample: on Scenario D data (three accounts splitting 2-vs-1 on
单/双 with side totals 200 vs 200, similarity 1 above the 3-account threshold
0.85), the generator emits NO candidate at group size 3, and the whole run
emits no pattern at all — the claim that this yields a RoundCandidate is
false on the code. -/
theorem c1_counterexample :
    detect_n_account_candidates dfC1 defaultConfig dfC1 3 = []
    ∧ run_detection defaultConfig dfC1 = [] := by decide

/-- C1 (amended): the per-round enumeration runs for every group size k, but
`_get_valid_direction_combinations` produces direction combinations only for
k = 2 (one account on each side of each configured pair, plus
position-prefixed variants); for every k ≠ 2 the list is empty and no
candidate is ever emitted, so a 3-account 2-vs-1 split is never flagged. -/
theorem c1_amended (stats_df df : List BetRecord) (cfg : Config) (n : Nat) (hn : n ≠ 2) :
    _get_valid_direction_combinations cfg n = []
    ∧ detect_n_account_candidates stats_df cfg df n = []
    ∧ ∀ pr ∈ cfg.opposite_groups,
        ({ directions := [pr.1, pr.2], dir1_count := 1, dir2_count := 1,
           opposite_type := pr.1 ++ "-" ++ pr.2 } : DirCombo) ∈
          _get_valid_direction_combinations cfg 2 := by
  have hb : (n == 2) = false := by
    rw [beq_eq_false_iff_ne]
    exact hn
  have hcombo : _get_valid_direction_combinations cfg n = [] := by
    rw [_get_valid_direction_combinations, hb]
    rfl
  refine ⟨hcombo, ?_, ?_⟩
  · rw [List.eq_nil_iff_forall_not_mem]
    intro r hr
    obtain ⟨pd, g, -, he⟩ := mem_detect_n_candidates hr
    rw [hcombo, evalGroup_empty_none hn] at he
    cases he
  · intro pr hpr
    rw [_get_valid_direction_combinations]
    simp only [beq_self_eq_true, if_true]
    exact List.mem_append_left _ (List.mem_map_of_mem _ hpr)

/-- C1 amended, witnessed at group size 3 on the Scenario D data. -/
theorem c1_amended_witness :
    _get_valid_direction_combinations defaultConfig 3 = []
    ∧ detect_n_account_candidates dfC1 defaultConfig dfC1 3 = []
    ∧ ∀ pr ∈ defaultConfig.opposite_groups,
        ({ directions := [pr.1, pr.2], dir1_count := 1, dir2_count := 1,
           opposite_type := pr.1 ++ "-" ++ pr.2 } : DirCombo) ∈
          _get_valid_direction_combinations defaultConfig 2 :=
  c1_amended dfC1 dfC1 defaultConfig 3 (by decide)

/-! ## Claim C2 -/

/-- C2 counterexample: on `dfC2`, account 1 holds two 大-records (100 and 37)
in round 1 and account 2 one 小-record (100).  The engine emits exactly one
candidate whose 大-side total is 100 (only the FIRST record of each grouped
account is used), while the sum of the amounts of ALL records of the grouped
accounts with direction 大 in that round is 137 — so `side1_total` does not
equal the sum over all records, and the emitted similarity is 1 rather than
100/137. -/
theorem c2_counterexample :
    (detect_n_account_candidates dfC2 defaultConfig
        (exclude_multi_direction_accounts (df_valid_filter defaultConfig dfC2)) 2).map
      (fun r => (r.dir1, r.dir1_total, r.dir2_total))
      = [("大", 100, 100)]
    ∧ qsum ((dfC2.filter (fun s =>
        s.round_id == 1 && (s.account == 1 || s.account == 2) && s.direction == "大")).map
        (fun r => r.amount)) = 137 := by decide

/-- C2 (amended): for every emitted candidate, the stored side totals are the
sums over the group's per-account FIRST bets (the pairing of the record's
stored direction list and amount list) on each side of the reference
direction; both side totals are strictly positive, and 总金额 is their sum.
When an account has several same-direction records in the round, the extra
records are ignored, not summed. -/
theorem c2_amended (stats_df : List BetRecord) (cfg : Config) (df : List BetRecord)
    (n : Nat) (r : WashRecord)
    (h : r ∈ detect_n_account_candidates stats_df cfg df n) :
    (0 < r.dir1_total ∧ 0 < r.dir2_total)
    ∧ r.dir1_total = (((r.direction_group.zip r.amount_group).filter
        (fun b => b.1 == r.dir1)).map (fun b => b.2)).sum
    ∧ r.dir2_total = (((r.direction_group.zip r.amount_group).filter
        (fun b => ¬ b.1 == r.dir1)).map (fun b => b.2)).sum
    ∧ r.total_amount = r.dir1_total + r.dir2_total := by
  obtain ⟨pd, g, -, he⟩ := mem_detect_n_candidates h
  obtain ⟨-, -, -, -, hdir, hamt, -, h1, h2, hpos, -, htot, -⟩ := evalGroup_eq_some he
  have hzip : r.direction_group.zip r.amount_group = firstBets pd g := by
    rw [hdir, hamt, zip_proj]
  refine ⟨hpos, ?_, ?_, ?_⟩
  · rw [hzip, h1, qsum_eq]
  · rw [hzip, h2, qsum_eq]
  · rw [htot, qadd_eq]

/-- C2 amended, witnessed on the round-1 candidate of `dfC7`. -/
theorem c2_amended_witness :
    (0 < (mkWr 1).dir1_total ∧ 0 < (mkWr 1).dir2_total)
    ∧ (mkWr 1).dir1_total = ((((mkWr 1).direction_group.zip (mkWr 1).amount_group).filter
        (fun b => b.1 == (mkWr 1).dir1)).map (fun b => b.2)).sum
    ∧ (mkWr 1).dir2_total = ((((mkWr 1).direction_group.zip (mkWr 1).amount_group).filter
        (fun b => ¬ b.1 == (mkWr 1).dir1)).map (fun b => b.2)).sum
    ∧ (mkWr 1).total_amount = (mkWr 1).dir1_total + (mkWr 1).dir2_total :=
  c2_amended dfC2 defaultConfig
    (exclude_multi_direction_accounts (df_valid_filter defaultConfig dfC2)) 2 (mkWr 1)
    (by decide)

/-! ## Claim C3 -/

/-- C3: for every account group whose members all have recorded activity stats
for a lottery and in which two members' `total_rounds` differ by more than the
configured `max_period_disparity`, no AccountGroupPattern for that (account
set, lottery) is ever emitted by a full run, regardless of how many rounds
matched. -/
theorem c3 (cfg : Config) (df : List BetRecord) (group : List Nat) (lottery a b : Nat)
    (ha : a ∈ group) (hb : b ∈ group)
    (hstats : ∀ x ∈ group, account_in_stats df lottery x = true)
    (hdiff : cfg.account_period_diff_threshold <
      total_periods df lottery a - total_periods df lottery b) :
    (run_detection cfg df).filter
      (fun p => p.account_group.isPerm group && p.lottery == lottery) = [] := by
  rw [List.filter_eq_nil_iff]
  intro p hp hpred
  rw [Bool.and_eq_true] at hpred
  obtain ⟨hperm, hlot⟩ := hpred
  rw [List.isPerm_iff] at hperm
  rw [beq_iff_eq] at hlot
  obtain ⟨n, hn2, hpf⟩ := mem_run_detection hp
  obtain ⟨⟨r, hr, hgk⟩, -, -, -⟩ := mem_find_continuous hpf
  obtain ⟨pd, g, hglen, he⟩ := mem_detect_n_candidates hr
  obtain ⟨hacc, -, -, hchk, -⟩ := evalGroup_eq_some he
  have hsort : List.insertionSort (· ≤ ·) r.account_group = p.account_group :=
    congrArg Prod.fst hgk
  have hlotr : r.lottery = p.lottery := congrArg Prod.snd hgk
  have hpermr : List.Perm r.account_group group := by
    have h1 : List.Perm (List.insertionSort (· ≤ ·) r.account_group) r.account_group :=
      List.perm_insertionSort _ _
    rw [hsort] at h1
    exact h1.symm.trans hperm
  have hstats2 : ∀ x ∈ g, account_in_stats df lottery x = true := by
    intro x hx
    rw [← hacc] at hx
    exact hstats x (hpermr.mem_iff.1 hx)
  have hglen2 : 2 ≤ g.length := by omega
  have hl2 : r.lottery = lottery := hlotr.trans hlot
  rw [hl2, ← hacc] at hchk
  rw [hacc] at hchk
  rw [check_eq_spread_le hstats2 hglen2, decide_eq_true_eq] at hchk
  have hag : a ∈ g := by
    rw [← hacc]
    exact hpermr.mem_iff.2 ha
  have hbg : b ∈ g := by
    rw [← hacc]
    exact hpermr.mem_iff.2 hb
  have hab := @sub_le_periodSpread df lottery g a b hag hbg
  omega

/-- C3 witnessed: with disparity bound 2, accounts 1 and 2 of `dfC3` have
`total_rounds` 1 and 4 (difference 3 > 2), both have stats, and indeed the run
emits no pattern for the set {1,2} in lottery 1. -/
theorem c3_witness :
    (run_detection cfgC3 dfC3).filter
      (fun p => p.account_group.isPerm [1, 2] && p.lottery == 1) = [] :=
  c3 cfgC3 dfC3 [1, 2] 1 2 1 (by decide) (by decide) (by decide) (by decide)

/-- When the lottery has stats, `get_required_min_periods` is the tier mapping
of the group's minimum per-member round count. -/
theorem required_eq_tier {df : List BetRecord} {group : List Nat} {lottery : Nat}
    (cfg : Config) (hl : lottery_in_stats df lottery = true) :
    get_required_min_periods df cfg group lottery
      = (if minTotalPeriods df lottery group ≤ cfg.period_thresholds.low_activity then
           cfg.period_thresholds.min_periods_low
         else if minTotalPeriods df lottery group ≤ cfg.period_thresholds.medium_activity_high then
           cfg.period_thresholds.min_periods_medium
         else if minTotalPeriods df lottery group ≤ cfg.period_thresholds.high_activity_high then
           cfg.period_thresholds.min_periods_high
         else cfg.period_thresholds.min_periods_very_high) := by
  have hlvl : get_account_group_activity_level df cfg group lottery
      = (if minTotalPeriods df lottery group ≤ cfg.period_thresholds.low_activity then "low"
         else if minTotalPeriods df lottery group ≤ cfg.period_thresholds.medium_activity_high then "medium"
         else if minTotalPeriods df lottery group ≤ cfg.period_thresholds.high_activity_high then "high"
         else "very_high") := by
    rw [get_account_group_activity_level, if_neg (by simp [hl])]
  rw [get_required_min_periods, hlvl]
  by_cases h1 : minTotalPeriods df lottery group ≤ cfg.period_thresholds.low_activity
  · simp [h1]
  · by_cases h2 : minTotalPeriods df lottery group ≤ cfg.period_thresholds.medium_activity_high
    · simp [h1, h2]
    · by_cases h3 : minTotalPeriods df lottery group ≤ cfg.period_thresholds.high_activity_high
      · simp [h1, h2, h3]
      · simp [h1, h2, h3]

/-- A candidate group key whose record count reaches the required minimum is
always emitted as a pattern. -/
theorem find_continuous_emits {stats_df : List BetRecord} {cfg : Config}
    {records : List WashRecord} {k : List Nat × Nat}
    (hk : k ∈ records.map groupKey)
    (hge : get_required_min_periods stats_df cfg k.1 k.2 ≤ (recordsFor records k).length) :
    ∃ p ∈ find_continuous_patterns_optimized stats_df cfg records,
      p.account_group = k.1 ∧ p.lottery = k.2 := by
  have hlen : (sortByRound (recordsFor records k)).length = (recordsFor records k).length :=
    (List.perm_insertionSort _ _).length_eq
  have hcond : get_required_min_periods stats_df cfg k.1 k.2
      ≤ (sortByRound (recordsFor records k)).length := by
    rw [hlen]
    exact hge
  have hmem : (⟨k.1, k.2, k.1.length, (sortByRound (recordsFor records k)).length,
      qsum ((sortByRound (recordsFor records k)).map (fun r => r.total_amount)),
      (if ((sortByRound (recordsFor records k)).map (fun r => r.similarity)).length = 0 then 0
       else qdiv (qsum ((sortByRound (recordsFor records k)).map (fun r => r.similarity)))
         ((((sortByRound (recordsFor records k)).map (fun r => r.similarity)).length : Int) : ℚ)),
      (uniqueKeep ((sortByRound (recordsFor records k)).map (fun r => r.opposite_type))).map
        (fun t => (t, ((sortByRound (recordsFor records k)).filter
          (fun r => r.opposite_type == t)).length)),
      sortByRound (recordsFor records k),
      get_account_group_activity_level stats_df cfg k.1 k.2,
      get_required_min_periods stats_df cfg k.1 k.2⟩ : GroupPattern)
      ∈ find_continuous_patterns_optimized stats_df cfg records := by
    apply List.mem_filterMap.2
    refine ⟨k, mem_uniqueKeep.2 hk, ?_⟩
    simp only []
    rw [if_pos hcond]
  exact ⟨_, hmem, rfl, rfl⟩

/-! ## Claim C4 -/

/-- C4: under the default configuration, for every candidate group key
(group, lottery) of the collected candidate records, the required minimum
qualifying-round count is the activity-tier mapping (low ≤10 → 3,
medium ≤50 → 5, high ≤100 → 8, very-high → 11) of the minimum `total_rounds`
over the group's members, and a pattern for that (group, lottery) is emitted
if and only if the group's qualifying record count reaches that minimum. -/
theorem c4 (df : List BetRecord) (records : List WashRecord) (group : List Nat)
    (lottery : Nat)
    (hl : lottery_in_stats df lottery = true)
    (hkey : (group, lottery) ∈ records.map groupKey) :
    get_required_min_periods df defaultConfig group lottery
      = (if minTotalPeriods df lottery group ≤ 10 then 3
         else if minTotalPeriods df lottery group ≤ 50 then 5
         else if minTotalPeriods df lottery group ≤ 100 then 8
         else 11)
    ∧ ((∃ p ∈ find_continuous_patterns_optimized df defaultConfig records,
          p.account_group = group ∧ p.lottery = lottery)
        ↔ get_required_min_periods df defaultConfig group lottery
            ≤ (recordsFor records (group, lottery)).length) := by
  constructor
  · rw [required_eq_tier defaultConfig hl]
    rfl
  · constructor
    · rintro ⟨p, hp, hpg, hpl⟩
      obtain ⟨-, -, hper, hreq⟩ := mem_find_continuous hp
      rw [hpg, hpl] at hper hreq
      omega
    · intro hge
      exact find_continuous_emits hkey hge

/-- C4 witnessed: on `dfC3` stats (min total_rounds 1 over {1,2} → tier low,
requirement 3) with three collected candidate rounds, the pattern is
emitted. -/
theorem c4_witness :
    (get_required_min_periods dfC3 defaultConfig [1, 2] 1
      = (if minTotalPeriods dfC3 1 [1, 2] ≤ 10 then 3
         else if minTotalPeriods dfC3 1 [1, 2] ≤ 50 then 5
         else if minTotalPeriods dfC3 1 [1, 2] ≤ 100 then 8
         else 11))
    ∧ ((∃ p ∈ find_continuous_patterns_optimized dfC3 defaultConfig recsC4,
          p.account_group = [1, 2] ∧ p.lottery = 1)
        ↔ get_required_min_periods dfC3 defaultConfig [1, 2] 1
            ≤ (recordsFor recsC4 ([1, 2], 1)).length) :=
  c4 dfC3 recsC4 [1, 2] 1 (by decide) (by decide)

/-! ## Claim C5 -/

/-- C5 counterexample: in the group {1,2,3} on `dfC3` (disparity bound 2), two
members (1 and 2) DO have stats and their `total_rounds` spread is 3 > 2, yet
the check passes because member 3 has no stats — it is skipped even though at
least two members have stats, refuting "skipped exactly when fewer than two
members have stats". -/
theorem c5_counterexample :
    _check_account_period_difference dfC3 cfgC3 [1, 2, 3] 1 = true
    ∧ ([1, 2, 3].filter (fun a => account_in_stats dfC3 1 a)).length = 2
    ∧ cfgC3.account_period_diff_threshold <
        periodSpread dfC3 1 ([1, 2, 3].filter (fun a => account_in_stats dfC3 1 a)) := by
  decide

/-- C5 (amended): the disparity check is skipped (treated as passing) when the
lottery has no stats or when ANY member of the group lacks stats; only when
every member has stats (and the group has at least two members) is the
max−min spread of the members' `total_rounds` computed and compared against
`max_period_disparity`. -/
theorem c5_amended (df : List BetRecord) (cfg : Config) (group : List Nat) (lottery : Nat) :
    (lottery_in_stats df lottery = false →
      _check_account_period_difference df cfg group lottery = true)
    ∧ ((∃ a ∈ group, account_in_stats df lottery a = false) →
      _check_account_period_difference df cfg group lottery = true)
    ∧ ((∀ a ∈ group, account_in_stats df lottery a = true) → 2 ≤ group.length →
      (_check_account_period_difference df cfg group lottery = true
        ↔ periodSpread df lottery group ≤ cfg.account_period_diff_threshold)) := by
  refine ⟨?_, ?_, ?_⟩
  · intro h
    rw [_check_account_period_difference, if_pos (by simp [h])]
  · rintro ⟨a, ha, hmiss⟩
    rw [_check_account_period_difference]
    split
    · rfl
    · rw [collectPeriods_missing ha hmiss]
  · intro hall hlen
    rw [check_eq_spread_le hall hlen]
    exact decide_eq_true_iff

/-- C5 amended, witnessed: skipping on the partially-covered group {1,2,3}
and genuine comparison on the fully-covered group {1,2} of `dfC3`. -/
theorem c5_amended_witness :
    _check_account_period_difference dfC3 cfgC3 [1, 2, 3] 1 = true
    ∧ (_check_account_period_difference dfC3 cfgC3 [1, 2] 1 = true
        ↔ periodSpread dfC3 1 [1, 2] ≤ cfgC3.account_period_diff_threshold) :=
  ⟨(c5_amended dfC3 cfgC3 [1, 2, 3] 1).2.1 (by decide),
   (c5_amended dfC3 cfgC3 [1, 2] 1).2.2 (by decide) (by decide)⟩

/-! ## Claim C6 -/

/-- C6 counterexample: on `dfC6`, the pipeline's `AccountLotteryStat` values
are computed from the cleaned batch BEFORE the validity filter — account 1
has 24 distinct rounds in the pipeline's table but only 4 among the filtered
records — and this is observable: the run emits nothing (tier medium,
requirement 5 > 4 matched rounds), while the same pipeline with stats
computed from the filtered records emits a pattern (tier low,
requirement 3 ≤ 4). -/
theorem c6_counterexample :
    total_periods dfC6 1 1 = 24
    ∧ total_periods (df_valid_filter defaultConfig dfC6) 1 1 = 4
    ∧ run_detection defaultConfig dfC6 = []
    ∧ ¬ run_detection_statsFromFiltered defaultConfig dfC6 = [] := by decide

/-- C6 (amended): the `AccountLotteryStat` table is keyed by
(lottery, account) with `total_rounds` the number of distinct round ids and
`total_records` the row count — but it is computed from the cleaned records
BEFORE the direction/amount validity filter, and the run consults exactly
that pre-filter table. -/
theorem c6_amended (df : List BetRecord) (cfg : Config) (l a : Nat)
    (h : ¬ df_valid_filter cfg df = []) :
    total_periods df l a = ((accountRows df l a).map (fun r => r.round_id)).toFinset.card
    ∧ total_records df l a = (accountRows df l a).length
    ∧ run_detection cfg df = detect_all_wash_trades df cfg (df_valid_filter cfg df) := by
  refine ⟨(List.card_toFinset _).symm, rfl, ?_⟩
  rw [run_detection]
  rw [if_neg (by simpa [List.length_eq_zero] using h)]

/-- C6 amended, witnessed on `dfC6` at (lottery 1, account 1). -/
theorem c6_amended_witness :
    total_periods dfC6 1 1 = ((accountRows dfC6 1 1).map (fun r => r.round_id)).toFinset.card
    ∧ total_records dfC6 1 1 = (accountRows dfC6 1 1).length
    ∧ run_detection defaultConfig dfC6
        = detect_all_wash_trades dfC6 defaultConfig (df_valid_filter defaultConfig dfC6) :=
  c6_amended dfC6 defaultConfig 1 1 (by decide)

/-! ## Claim C7 -/

/-- C7 counterexample: `dfC7` contains a record violating the input contract
(empty direction, amount 5 below the minimum 10); the run does NOT fail fast —
the record is silently filtered out (the filtered set is exactly the tail)
and processing continues, emitting one pattern from the remaining records. -/
theorem c7_counterexample :
    (⟨1, 1, 1, "", 5⟩ : BetRecord) ∈ dfC7
    ∧ df_valid_filter defaultConfig dfC7 = dfC7.tail
    ∧ (run_detection defaultConfig dfC7).length = 1 := by decide

/-- C7 (amended): records violating the contract (empty direction or amount
below `min_amount`) are silently dropped by the validity filter — exactly the
conforming records survive — and whenever any record survives, the run
continues on the filtered rows (with stats from the full batch) instead of
failing; only a fully-invalid batch aborts (with an empty result, no error
value). -/
theorem c7_amended (cfg : Config) (df : List BetRecord) (r : BetRecord)
    (h : ¬ df_valid_filter cfg df = []) :
    (r ∈ df_valid_filter cfg df
      ↔ (r ∈ df ∧ ¬ r.direction = "" ∧ cfg.min_amount ≤ r.amount))
    ∧ run_detection cfg df = detect_all_wash_trades df cfg (df_valid_filter cfg df) := by
  constructor
  · rw [df_valid_filter, List.mem_filter]
    simp
  · rw [run_detection]
    rw [if_neg (by simpa [List.length_eq_zero] using h)]

/-- C7 amended, witnessed on `dfC7` at the malformed record. -/
theorem c7_amended_witness :
    ((⟨1, 1, 1, "", 5⟩ : BetRecord) ∈ df_valid_filter defaultConfig dfC7
      ↔ ((⟨1, 1, 1, "", 5⟩ : BetRecord) ∈ dfC7
          ∧ ¬ (⟨1, 1, 1, "", 5⟩ : BetRecord).direction = ""
          ∧ defaultConfig.min_amount ≤ (⟨1, 1, 1, "", 5⟩ : BetRecord).amount))
    ∧ run_detection defaultConfig dfC7
        = detect_all_wash_trades dfC7 defaultConfig (df_valid_filter defaultConfig dfC7) :=
  c7_amended defaultConfig dfC7 ⟨1, 1, 1, "", 5⟩ (by decide)

/-! ## Claim C8 -/

/-- C8: every emitted candidate's similarity equals
min(side1_total, side2_total) / max(side1_total, side2_total); consequently
0 < similarity ≤ 1, and similarity = 1 iff the two side totals are equal. -/
theorem c8 (stats_df : List BetRecord) (cfg : Config) (df : List BetRecord) (n : Nat)
    (r : WashRecord) (h : r ∈ detect_n_account_candidates stats_df cfg df n) :
    r.similarity = min r.dir1_total r.dir2_total / max r.dir1_total r.dir2_total
    ∧ 0 < r.similarity ∧ r.similarity ≤ 1
    ∧ (r.similarity = 1 ↔ r.dir1_total = r.dir2_total) := by
  obtain ⟨pd, g, -, he⟩ := mem_detect_n_candidates h
  obtain ⟨-, -, -, -, -, -, -, -, -, ⟨hp1, hp2⟩, hsim, -, -⟩ := evalGroup_eq_some he
  rw [qdiv_eq] at hsim
  have hminpos : 0 < min r.dir1_total r.dir2_total := lt_min hp1 hp2
  have hmaxpos : 0 < max r.dir1_total r.dir2_total := lt_of_lt_of_le hminpos min_le_max
  refine ⟨hsim, ?_, ?_, ?_⟩
  · rw [hsim]
    exact div_pos hminpos hmaxpos
  · rw [hsim]
    exact (div_le_one hmaxpos).2 min_le_max
  · rw [hsim]
    constructor
    · intro h1
      have hmm : min r.dir1_total r.dir2_total = max r.dir1_total r.dir2_total := by
        rw [div_eq_one_iff_eq hmaxpos.ne'] at h1
        exact h1
      rcases le_total r.dir1_total r.dir2_total with hle | hle
      · rw [min_eq_left hle, max_eq_right hle] at hmm
        exact hmm
      · rw [min_eq_right hle, max_eq_left hle] at hmm
        exact hmm.symm
    · intro h1
      rw [h1]
      simp [div_self hp2.ne']

/-- C8 witnessed on the round-1 candidate of `dfC7` (side totals 100 and 100,
similarity 1). -/
theorem c8_witness :
    (mkWr 1).similarity
        = min (mkWr 1).dir1_total (mkWr 1).dir2_total
          / max (mkWr 1).dir1_total (mkWr 1).dir2_total
    ∧ 0 < (mkWr 1).similarity ∧ (mkWr 1).similarity ≤ 1
    ∧ ((mkWr 1).similarity = 1 ↔ (mkWr 1).dir1_total = (mkWr 1).dir2_total) :=
  c8 dfC7 defaultConfig
    (exclude_multi_direction_accounts (df_valid_filter defaultConfig dfC7)) 2 (mkWr 1)
    (by decide)

/-! ## Claim C9 -/

/-- C9: detection is a pure function of input and configuration (running it
twice yields the same output), every emitted pattern lists its rounds in
ascending round_id order, and whenever a configured opposite pair matches a
combination the emitted label is that of the FIRST matching combination in
configuration declaration order (the `find?` of the declaration-ordered
list). -/
theorem c9 (cfg : Config) (df stats_df recs : List BetRecord) (n : Nat)
    (p : GroupPattern) (r : WashRecord) (c : DirCombo)
    (hp : p ∈ run_detection cfg df)
    (hr : r ∈ detect_n_account_candidates stats_df cfg recs n)
    (hc : matchCombo (_get_valid_direction_combinations cfg n) r.direction_group = some c) :
    run_detection cfg df = run_detection cfg df
    ∧ (p.records.map (fun x => x.round_id)).Sorted (· ≤ ·)
    ∧ r.opposite_type = c.opposite_type := by
  refine ⟨rfl, ?_, ?_⟩
  · obtain ⟨n0, -, hpf⟩ := mem_run_detection hp
    obtain ⟨-, hrecs, -, -⟩ := mem_find_continuous hpf
    rw [hrecs]
    exact sorted_map_round _
  · obtain ⟨pd, g, -, he⟩ := mem_detect_n_candidates hr
    obtain ⟨-, -, -, -, -, -, -, -, -, -, -, -, hmc⟩ := evalGroup_eq_some he
    exact (hmc c hc).1

/-- C9 witnessed on `dfC7`: the emitted pattern, its ascending rounds 1,2,3,
and the 大/小 pair label resolved by declaration order. -/
theorem c9_witness :
    run_detection defaultConfig dfC7 = run_detection defaultConfig dfC7
    ∧ (patC7.records.map (fun x => x.round_id)).Sorted (· ≤ ·)
    ∧ (mkWr 1).opposite_type = comboBS.opposite_type :=
  c9 defaultConfig dfC7 dfC7
    (exclude_multi_direction_accounts (df_valid_filter defaultConfig dfC7)) 2
    patC7 (mkWr 1) comboBS (by decide) (by decide) (by decide)

/-! ## Claim C10 -/

/-- C10: the single-direction filter groups by (round_id, account) only,
ignoring lottery: if an account's records under one round id span two
different directions — even in different lotteries — every record of that
(round_id, account) pair is removed; if they all share one direction, every
record is kept, duplicates included (multiplicities preserved). -/
theorem c10 (df : List BetRecord) (ro a : Nat) :
    ((∃ r, r ∈ df ∧ r.round_id = ro ∧ r.account = a ∧
        ∃ s, s ∈ df ∧ s.round_id = ro ∧ s.account = a ∧ ¬ s.direction = r.direction) →
      ∀ t ∈ exclude_multi_direction_accounts df, ¬ (t.round_id = ro ∧ t.account = a))
    ∧ ((∀ r ∈ df, r.round_id = ro → r.account = a →
          ∀ s ∈ df, s.round_id = ro → s.account = a → s.direction = r.direction) →
        ∀ t : BetRecord, t.round_id = ro → t.account = a →
          (exclude_multi_direction_accounts df).count t = df.count t) := by
  constructor
  · rintro ⟨r, hrdf, hrro, hra, s, hsdf, hsro, hsa, hsd⟩ t ht hcon
    obtain ⟨htro, hta⟩ := hcon
    rw [exclude_multi_direction_accounts, List.mem_filter] at ht
    obtain ⟨-, hpred⟩ := ht
    rw [decide_eq_true_eq] at hpred
    have hrmem : r.direction ∈ (df.filter (fun s2 =>
        s2.round_id == t.round_id && s2.account == t.account)).map (fun s2 => s2.direction) :=
      List.mem_map_of_mem _ (List.mem_filter.2 ⟨hrdf, by simp [htro, hta, hrro, hra]⟩)
    have hsmem : s.direction ∈ (df.filter (fun s2 =>
        s2.round_id == t.round_id && s2.account == t.account)).map (fun s2 => s2.direction) :=
      List.mem_map_of_mem _ (List.mem_filter.2 ⟨hsdf, by simp [htro, hta, hsro, hsa]⟩)
    have h2 := two_le_length_of_two_mem (mem_uniqueKeep.2 hrmem) (mem_uniqueKeep.2 hsmem)
      (fun he => hsd he.symm)
    omega
  · intro hsame t htro hta
    rw [exclude_multi_direction_accounts]
    apply List.count_filter
    rw [decide_eq_true_eq]
    apply uniqueKeep_length_le_one
    intro x hx y hy
    rw [List.mem_map] at hx hy
    obtain ⟨r1, hr1, rfl⟩ := hx
    obtain ⟨r2, hr2, rfl⟩ := hy
    rw [List.mem_filter] at hr1 hr2
    obtain ⟨hr1df, hr1p⟩ := hr1
    obtain ⟨hr2df, hr2p⟩ := hr2
    rw [Bool.and_eq_true, beq_iff_eq, beq_iff_eq] at hr1p hr2p
    exact hsame r2 hr2df (hr2p.1.trans htro) (hr2p.2.trans hta)
      r1 hr1df (hr1p.1.trans htro) (hr1p.2.trans hta)

/-- C10 witnessed on `df10`: account 7's round-1 records in two different
lotteries with two directions are all removed (no surviving row has that
(round, account) pair), and account 8's duplicate same-direction rows keep
their multiplicity. -/
theorem c10_witness :
    ¬ ((⟨2, 1, 8, "大", 10⟩ : BetRecord).round_id = 1
        ∧ (⟨2, 1, 8, "大", 10⟩ : BetRecord).account = 7)
    ∧ (exclude_multi_direction_accounts df10).count ⟨2, 1, 8, "大", 10⟩
        = df10.count ⟨2, 1, 8, "大", 10⟩ :=
  ⟨(c10 df10 1 7).1 (by decide) ⟨2, 1, 8, "大", 10⟩ (by decide),
   (c10 df10 2 8).2 (by decide) ⟨2, 1, 8, "大", 10⟩ rfl rfl⟩

end App
